import Mathlib

/-!
Verification of the notifications widget
(`packages/messages/src/browser/notifications.ts`).

The module is modelled as a small operational semantics over a world state
holding:

* `doc`    — the notification elements currently attached to the live document
  (the children of the notifications container; `getElementById` lookups are
  resolved against this list, first match in document order, exactly like the
  DOM, and never see detached subtrees);
* `insts`  — one record per `createNotificationElement` call, holding the
  captured `properties`, the mutable `closeTimer` closure variable shared by
  the `onShow` handler and the button click handlers, and whether an `onShow`
  handler was subscribed (`properties.timeout && properties.timeout > 0`);
* `timers` — the active `setTimeout` timers (id, absolute deadline, which
  element the callback removes, which properties id it reports);
* `now`    — the clock; a timer callback may run only once `now` has reached
  its deadline, matching `setTimeout` semantics;
* `trace`  — the observable events: `ShownEvent` broadcasts, `onTimeout()`
  invocations, action callback invocations and `element.remove()` calls.
  Host callbacks (`onTimeout`, `NotificationAction.fn`) are modelled as trace
  events; they are opaque host functions whose own effects are outside the
  module.

One notification subtree (outer div, icon, optional progress paragraph, text
paragraph, button row) is flattened into a single `Elem` record: the source
creates the subtree atomically, mutates only the text/progress paragraphs in
place, and removes only the whole subtree, so the flattening loses nothing.
`Elem.key` models JavaScript object identity of the subtree (closures created
in `createNotificationElement` remove the captured element itself, while the
`ProgressNotificationImpl` methods re-locate nodes by formatted id strings).

A `DocumentFragment` is modelled as its list of child elements; appending a
fragment moves its children into the target and leaves the fragment empty,
exactly as in the DOM.

JavaScript `number | undefined` timeouts become `Option Int` (truthiness of
`0`/`undefined` is modelled explicitly); the `work` fields of `update` become
`Int` and `Math.floor(done / total * 100)` becomes integer floor division,
proved below to agree with the exact rational floor for positive totals.
-/

/-- Class-name constant PROGRESS from the source; the icon value that triggers
creation of the progress sub-element. -/
def PROGRESS : String := "progress"

/-- NotificationAction from the source; the callback field `fn` is an opaque
host function, observable in the model as a trace event carrying the label. -/
structure NotificationAction where
  label : String
  deriving DecidableEq

/-- NotificationProperties from the source; `timeout` has TypeScript type
`number | undefined`, modelled as `Option Int`; the `onTimeout` callback is
observable as a trace event. -/
structure NotificationProperties where
  id : String
  icon : String
  text : String
  actions : Option (List NotificationAction)
  timeout : Option Int
  deriving DecidableEq

/-- Icon-class mapping `Notifications.toIconClass` from the source. -/
def toIconClass (icon : String) : String :=
  match icon with
  | "error" => "fa-times-circle"
  | "warning" => "fa-warning"
  | "progress" => "fa-spinner"
  | _ => "fa-info-circle"

/-- One notification DOM subtree, flattened into a record (see module
comment). `cid`/`textId`/`progressId` are the formatted id strings used for
lookups; `text`/`progressText` are the `innerText` values of the text and
progress paragraphs; `key` models object identity. -/
structure Elem where
  key : Nat
  cid : String
  iconClasses : List String
  progressId : Option String
  progressText : String
  textId : String
  text : String
  buttons : List String
  deriving DecidableEq

/-- An active `setTimeout` timer scheduled by the `onShow` handler of
`createNotificationElement`: on firing it invokes `properties.onTimeout()` and
then removes the captured element. -/
structure Timer where
  tid : Nat
  deadline : Nat
  instKey : Nat
  forId : String
  deriving DecidableEq

/-- The closure state created by one `createNotificationElement` call: the
captured `properties`, the mutable `closeTimer` variable, and whether the
`onShow` handler was registered (the subscription is never disposed in the
source, so there is no way back from `subscribed = true`). -/
structure Inst where
  key : Nat
  props : NotificationProperties
  closeTimer : Option Nat
  subscribed : Bool
  deriving DecidableEq

/-- Observable events: `ShownEvent` broadcasts of the emitter, `onTimeout()`
invocations, action callback invocations, and `element.remove()` calls. -/
inductive TraceEvent where
  | shown (id : String)
  | timedOut (id : String)
  | actionRun (id : String) (label : String)
  | removed (key : Nat)
  deriving DecidableEq

/-- The world state; see the module comment for the role of each field.
`nextKey` and `nextTid` are the allocators for element identities and
`setTimeout` ids (timer ids are positive in the browser, so allocation starts
at 1 in `emptyWorld`). -/
structure WorldState where
  doc : List Elem
  insts : List Inst
  timers : List Timer
  now : Nat
  nextKey : Nat
  nextTid : Nat
  trace : List TraceEvent
  deriving DecidableEq

/-- ProgressNotificationImpl from the source: the captured properties and the
captured `node` (a `DocumentFragment`, modelled as its child list, which is
emptied when appended). -/
structure ProgressHandle where
  props : NotificationProperties
  node : List Elem
  deriving DecidableEq

/-- Formatted container id: `'notification-container-' + properties.id`. -/
def cidOf (id : String) : String := "notification-container-" ++ id

/-- Formatted text paragraph id: `'notification-text-' + properties.id`. -/
def textIdOf (id : String) : String := "notification-text-" ++ id

/-- Formatted progress paragraph id:
`'notification-progress-' + properties.id`. -/
def progressIdOf (id : String) : String := "notification-progress-" ++ id

/-- The guard `properties.timeout && properties.timeout > 0` from the source:
`undefined` and `0` are falsy, and a truthy timeout must additionally be
positive. -/
def timeoutArmed (t : Option Int) : Bool :=
  match t with
  | none => false
  | some v => v != 0 && decide (0 < v)

/-- The notification subtree built by `createNotificationElement` (element ids,
icon classes, initial `innerText` values, button labels), flattened. -/
def buildElem (key : Nat) (p : NotificationProperties) : Elem :=
  { key := key
    cid := cidOf p.id
    iconClasses := ["fa", toIconClass p.icon]
      ++ (if p.icon == PROGRESS then ["fa-pulse"] else [])
      ++ ["fa-fw", p.icon]
    progressId := if p.icon == PROGRESS then some (progressIdOf p.id) else none
    progressText := ""
    textId := textIdOf p.id
    text := p.text
    buttons := (p.actions.getD []).map (fun a => a.label) }

/-- Effect of `Notifications.createNotificationElement`: returns the document
fragment (one subtree) and registers the closure instance, subscribed to
`onShow` exactly when the timeout guard holds. No container mutation, no
event, no timer. -/
def createNotificationElement (p : NotificationProperties) (st : WorldState) :
    List Elem × WorldState :=
  ([buildElem st.nextKey p],
    { st with
      insts := st.insts ++
        [{ key := st.nextKey, props := p, closeTimer := none,
           subscribed := timeoutArmed p.timeout }]
      nextKey := st.nextKey + 1 })

/-- The body of `window.clearTimeout(closeTimer)` guarded by the truthiness
check `if (closeTimer)`: a timer id is cleared only when the variable is set
and nonzero. -/
def clearPending (ct : Option Nat) (ts : List Timer) : List Timer :=
  match ct with
  | none => ts
  | some c => if c != 0 then ts.filter (fun t => t.tid != c) else ts

/-- The timer created by `closeTimer = window.setTimeout(..., properties.timeout)`
inside the `onShow` handler: deadline is the current time plus the timeout. -/
def armTimer (now n : Nat) (i : Inst) : Timer :=
  { tid := n, deadline := now + (i.props.timeout.getD 0).toNat,
    instKey := i.key, forId := i.props.id }

/-- Synchronous run of all `onShow` handlers on a broadcast, in subscription
order: every subscribed instance whose captured `properties.id` equals the
broadcast id clears its pending timer (if truthy) and schedules a fresh one.
Returns the updated instances, the updated timer set, and the next timer id. -/
def fireLoop (now : Nat) (id : String) :
    List Inst → List Timer → Nat → List Inst × List Timer × Nat
  | [], ts, n => ([], ts, n)
  | i :: rest, ts, n =>
    if i.subscribed && i.props.id == id then
      let r := fireLoop now id rest (clearPending i.closeTimer ts ++ [armTimer now n i]) (n + 1)
      ({ i with closeTimer := some n } :: r.1, r.2)
    else
      let r := fireLoop now id rest ts n
      (i :: r.1, r.2)

/-- Effect of `this.onShowEmitter.fire(id)`: record the broadcast and run the
handlers. The document is not touched. -/
def fireShown (id : String) (st : WorldState) : WorldState :=
  let r := fireLoop st.now id st.insts st.timers st.nextTid
  { st with insts := r.1, timers := r.2.1, nextTid := r.2.2,
            trace := st.trace ++ [TraceEvent.shown id] }

/-- Notifications.show from the source: build the subtree, append the fragment
to the container, broadcast `ShownEvent(id)`. -/
def notificationsShow (p : NotificationProperties) (st : WorldState) : WorldState :=
  let r := createNotificationElement p st
  fireShown p.id { r.2 with doc := r.2.doc ++ r.1 }

/-- Notifications.create from the source: build the subtree and wrap it in a
handle; nothing is appended and nothing is fired. -/
def notificationsCreate (p : NotificationProperties) (st : WorldState) :
    ProgressHandle × WorldState :=
  let r := createNotificationElement p st
  ({ props := p, node := r.1 }, r.2)

/-- Effect of `element.remove()` on a captured element: detach it from the
document if attached (a no-op on an already detached element) and record the
call. -/
def elemRemove (k : Nat) (st : WorldState) : WorldState :=
  { st with doc := st.doc.filter (fun e => e.key != k),
            trace := st.trace ++ [TraceEvent.removed k] }

/-- ProgressNotificationImpl.show: if no element with the formatted container
id is in the document, append the captured fragment (moving its children out
of it) and broadcast; otherwise do nothing. -/
def pnShow (h : ProgressHandle) (st : WorldState) : ProgressHandle × WorldState :=
  match st.doc.find? (fun e => e.cid == cidOf h.props.id) with
  | some _ => (h, st)
  | none =>
    ({ h with node := [] }, fireShown h.props.id { st with doc := st.doc ++ h.node })

/-- ProgressNotificationImpl.close: look the container element up by id;
return silently when absent, remove it when present. -/
def pnClose (h : ProgressHandle) (st : WorldState) : WorldState :=
  match st.doc.find? (fun e => e.cid == cidOf h.props.id) with
  | none => st
  | some e => elemRemove e.key st

/-- The `work` payload of `ProgressNotification.update`. -/
structure WorkInfo where
  done : Int
  total : Int
  deriving DecidableEq

/-- The argument of `ProgressNotification.update`. -/
structure UpdateItem where
  message : Option String
  work : Option WorkInfo
  deriving DecidableEq

/-- Rendered progress text `Math.floor(done / total * 100) + "%"`; floor
division realises the exact floor (shown below to agree with the rational
floor of `done / total * 100` whenever `total > 0`). -/
def percentText (w : WorkInfo) : String :=
  toString ((w.done * 100).fdiv w.total) ++ "%"

/-- The text suffix `(item.message ? ': ' + item.message : '')`; an absent or
empty message is falsy and contributes nothing. -/
def msgSuffix : Option String → String
  | none => ""
  | some m => if m == "" then "" else ": " ++ m

/-- Assignment `textElement.innerText = s` to the element with identity `k`. -/
def setText (k : Nat) (s : String) (doc : List Elem) : List Elem :=
  doc.map (fun e => if e.key == k then { e with text := s } else e)

/-- Assignment `progressElement.innerText = s` to the element with identity
`k`. -/
def setProgressText (k : Nat) (s : String) (doc : List Elem) : List Elem :=
  doc.map (fun e => if e.key == k then { e with progressText := s } else e)

/-- ProgressNotificationImpl.update: locate the text paragraph by formatted id
in the live document (silent no-op when absent); when `work` is present and
the progress paragraph is found, write the floored percentage into it; finally
rewrite the main text as `properties.text` plus the message suffix. -/
def pnUpdate (h : ProgressHandle) (item : UpdateItem) (st : WorldState) : WorldState :=
  match st.doc.find? (fun e => e.textId == textIdOf h.props.id) with
  | none => st
  | some te =>
    let st1 :=
      match item.work with
      | none => st
      | some w =>
        match st.doc.find? (fun e : Elem => e.progressId == some (progressIdOf h.props.id)) with
        | none => st
        | some pe => { st with doc := setProgressText pe.key (percentText w) st.doc }
    { st1 with doc := setText te.key (h.props.text ++ msgSuffix item.message) st1.doc }

/-- The click handler wired to an action button of the instance `k`: clear the
pending timer if truthy, invoke `action.fn(handler)` (a trace event), then
`close()` the captured element. -/
def clickButton (k : Nat) (label : String) (st : WorldState) : WorldState :=
  match st.insts.find? (fun i => i.key == k) with
  | none => st
  | some i =>
    let st1 :=
      match i.closeTimer with
      | none => st
      | some ct =>
        if ct != 0 then { st with timers := st.timers.filter (fun t => t.tid != ct) }
        else st
    elemRemove k { st1 with trace := st1.trace ++ [TraceEvent.actionRun i.props.id label] }

/-- Event-loop delivery of a due `setTimeout` callback: a timer may run only
once the clock has reached its deadline; it then invokes
`properties.onTimeout()` and `close()`s the captured element, and leaves the
active set. -/
def timerFire (tid : Nat) (st : WorldState) : WorldState :=
  match st.timers.find? (fun t => t.tid == tid) with
  | none => st
  | some t =>
    if t.deadline ≤ st.now then
      elemRemove t.instKey
        { st with timers := st.timers.filter (fun u => u.tid != tid),
                  trace := st.trace ++ [TraceEvent.timedOut t.forId] }
    else st

/-- Passage of time on the host event loop. -/
def advance (d : Nat) (st : WorldState) : WorldState := { st with now := st.now + d }

/-- Initial world: empty container, no handlers, no timers; browser timer ids
are positive, so timer-id allocation starts at 1. -/
def emptyWorld : WorldState :=
  { doc := [], insts := [], timers := [], now := 0, nextKey := 1, nextTid := 1, trace := [] }

/-- Demo properties: a plain notification with one action button and a
positive timeout. -/
def propsA : NotificationProperties :=
  { id := "n1", icon := "info", text := "hello",
    actions := some [{ label := "OK" }], timeout := some 5 }

/-- Demo world: `propsA` shown through `Notifications.show` on the empty
world. -/
def w1 : WorldState := notificationsShow propsA emptyWorld

/-- Demo world: `w1` after 5 time units, so the armed timer is due. -/
def w2 : WorldState := advance 5 w1

/-- Demo properties: a progress notification created deferred, no timeout. -/
def propsP : NotificationProperties :=
  { id := "p1", icon := "progress", text := "T", actions := none, timeout := none }

/-- Demo handle for `propsP`, fresh from `Notifications.create`. -/
def hP : ProgressHandle := (notificationsCreate propsP emptyWorld).1

/-- Demo world right after `Notifications.create` of `propsP`. -/
def sP : WorldState := (notificationsCreate propsP emptyWorld).2

/-- Demo handle after the first `show()` (its fragment is now empty). -/
def hP2 : ProgressHandle := (pnShow hP sP).1

/-- Demo world after the first `show()` of the progress handle. -/
def sP2 : WorldState := (pnShow hP sP).2

/-- Demo world: the shown progress element is removed externally (by code
outside the module), leaving the document empty. -/
def sExt : WorldState := { sP2 with doc := [] }

/-- Demo properties: a progress notification with a positive timeout. -/
def propsQ : NotificationProperties :=
  { id := "q1", icon := "progress", text := "QT", actions := none, timeout := some 3 }

/-- Demo handle for `propsQ`. -/
def hQ : ProgressHandle := (notificationsCreate propsQ emptyWorld).1

/-- Demo world right after `Notifications.create` of `propsQ`. -/
def sQ : WorldState := (notificationsCreate propsQ emptyWorld).2

/-- Demo world after the first `show()` of `hQ` (timer 1 armed, deadline 3). -/
def sQ2 : WorldState := (pnShow hQ sQ).2

/-- Demo world after timer 1 fires at its deadline: `onTimeout` ran and the
element was removed. -/
def sQ3 : WorldState := timerFire 1 (advance 3 sQ2)

/-- Demo world after a second `show()` on the already-consumed handle: the
presence check fails (the element is gone), so the empty fragment is appended
and `ShownEvent` fires again, arming timer 2. -/
def sQ4 : WorldState := (pnShow (pnShow hQ sQ).1 sQ3).2

example : timeoutArmed (some 5) = true := by decide
example : timeoutArmed (some 0) = false := by decide
example : percentText { done := 1, total := 4 } = "25%" := by decide
example : w1.timers = [{ tid := 1, deadline := 5, instKey := 1, forId := "n1" }] := by decide
example : w1.doc = [buildElem 1 propsA] := by decide
example : (timerFire 1 w2).trace =
    [TraceEvent.shown "n1", TraceEvent.timedOut "n1", TraceEvent.removed 1] := by decide
example : (timerFire 1 w2).doc = [] := by decide
example : sQ4.timers = [{ tid := 2, deadline := 6, instKey := 1, forId := "q1" }] := by decide
example : sQ4.doc = [] := by decide

/-- Demo update argument carrying only a message. -/
def itemM : UpdateItem := { message := some "m", work := none }

/-- Demo update argument with no message and no work. -/
def itemNone : UpdateItem := { message := none, work := none }

/-- Demo update argument reporting 1 of 4 units of work done. -/
def itemW14 : UpdateItem := { message := none, work := some { done := 1, total := 4 } }

/-- Demo update argument reporting 3 of 3 units of work done. -/
def itemW33 : UpdateItem := { message := none, work := some { done := 3, total := 3 } }

/-- Demo properties: a plain (non-progress) notification without timeout. -/
def propsR : NotificationProperties :=
  { id := "r1", icon := "error", text := "R", actions := none, timeout := none }

/-- Demo world: `propsR` shown through the store on the empty world. -/
def sR : WorldState := notificationsShow propsR emptyWorld

/-- Demo instance record: the closure created for `propsA` inside `w1`, after
its timer 1 was armed by the show broadcast. -/
def instA : Inst := { key := 1, props := propsA, closeTimer := some 1, subscribed := true }

/-- Demo timer record: the timer armed for `propsA` in `w1`. -/
def timerA : Timer := { tid := 1, deadline := 5, instKey := 1, forId := "n1" }

/-- Unfolding lemma: a broadcast does not touch the document. -/
theorem fireShown_doc (id : String) (st : WorldState) : (fireShown id st).doc = st.doc := rfl

/-- Unfolding lemma: a broadcast appends exactly the `ShownEvent` to the
trace. -/
theorem fireShown_trace (id : String) (st : WorldState) :
    (fireShown id st).trace = st.trace ++ [TraceEvent.shown id] := rfl

/-- Unfolding lemma for the timers after a broadcast. -/
theorem fireShown_timers (id : String) (st : WorldState) :
    (fireShown id st).timers = (fireLoop st.now id st.insts st.timers st.nextTid).2.1 := rfl

/-- Unfolding lemma for the instances after a broadcast. -/
theorem fireShown_insts (id : String) (st : WorldState) :
    (fireShown id st).insts = (fireLoop st.now id st.insts st.timers st.nextTid).1 := rfl

/-- A cleared timer list is a subset of the original. -/
theorem clearPending_subset (ct : Option Nat) (ts : List Timer) :
    ∀ t ∈ clearPending ct ts, t ∈ ts := by
  intro t ht
  cases ct with
  | none => simpa [clearPending] using ht
  | some c =>
    by_cases h : (c != 0) = true
    · simp only [clearPending, h, if_true] at ht
      exact (List.mem_filter.mp ht).1
    · simpa [clearPending, h] using ht

/-- Clearing never removes a timer whose id differs from the cleared one. -/
theorem clearPending_mem_of_ne (ct : Option Nat) (ts : List Timer) (t0 : Timer)
    (h0 : t0 ∈ ts) (hne : ∀ c, ct = some c → c ≠ t0.tid) : t0 ∈ clearPending ct ts := by
  cases ct with
  | none => simpa [clearPending] using h0
  | some c =>
    by_cases h : (c != 0) = true
    · simp only [clearPending, h, if_true]
      exact List.mem_filter.mpr ⟨h0, by simpa [bne_iff_ne] using (hne c rfl).symm⟩
    · simpa [clearPending, h] using h0

/-- Handler runs keep every timer id below the running allocator out of the
new timers: ids at least `n` are only ever allocated going up. -/
theorem fireLoop_timers_no_tid (now : Nat) (id : String) (x : Nat) :
    ∀ (is : List Inst) (ts : List Timer) (n : Nat), x < n → (∀ t ∈ ts, t.tid ≠ x) →
    ∀ t ∈ (fireLoop now id is ts n).2.1, t.tid ≠ x := by
  intro is
  induction is with
  | nil => intro ts n _ hts t ht; exact hts t (by simpa [fireLoop] using ht)
  | cons i rest ih =>
    intro ts n hx hts t ht
    by_cases hc : (i.subscribed && i.props.id == id) = true
    · simp only [fireLoop, hc, if_true] at ht
      refine ih _ (n + 1) (Nat.lt_succ_of_lt hx) ?_ t ht
      intro t' ht'
      rcases List.mem_append.mp ht' with h1 | h1
      · exact hts t' (clearPending_subset _ _ t' h1)
      · have : t' = armTimer now n i := by simpa using h1
        subst this
        exact fun hcon => absurd (hcon ▸ hx) (Nat.lt_irrefl x)
    · simp only [fireLoop, hc, if_false] at ht
      exact ih ts n hx hts t ht

/-- Re-arm clears: once a subscribed matching instance with a truthy pending
timer id below the allocator is processed, no active timer carries that id. -/
theorem fireLoop_clears (now : Nat) (id : String) (oldTid : Nat) :
    ∀ (is : List Inst) (ts : List Timer) (n : Nat) (i : Inst), i ∈ is →
    i.subscribed = true → i.props.id = id → i.closeTimer = some oldTid →
    oldTid ≠ 0 → oldTid < n →
    ∀ t ∈ (fireLoop now id is ts n).2.1, t.tid ≠ oldTid := by
  intro is
  induction is with
  | nil => intro ts n i hi; exact absurd hi (List.not_mem_nil i)
  | cons j rest ih =>
    intro ts n i hi hsub hid hct hct0 hlt t ht
    rcases List.mem_cons.mp hi with rfl | hi'
    · have hc : (i.subscribed && i.props.id == id) = true := by
        simp [hsub, hid]
      simp only [fireLoop, hc, if_true] at ht
      refine fireLoop_timers_no_tid now id oldTid rest _ (n + 1)
        (Nat.lt_succ_of_lt hlt) ?_ t ht
      intro t' ht'
      rcases List.mem_append.mp ht' with h1 | h1
      · rw [hct] at h1
        have hb : (oldTid != 0) = true := by simpa [bne_iff_ne] using hct0
        simp only [clearPending, hb, if_true] at h1
        simpa [bne_iff_ne] using (List.mem_filter.mp h1).2
      · have : t' = armTimer now n i := by simpa using h1
        subst this
        exact fun hcon => absurd (hcon ▸ hlt) (Nat.lt_irrefl oldTid)
    · by_cases hc : (j.subscribed && j.props.id == id) = true
      · simp only [fireLoop, hc, if_true] at ht
        exact ih _ (n + 1) i hi' hsub hid hct hct0 (Nat.lt_succ_of_lt hlt) t ht
      · simp only [fireLoop, hc, if_false] at ht
        exact ih ts n i hi' hsub hid hct hct0 hlt t ht

/-- Timer survival: a timer whose id is referenced by no instance's pending
slot survives the whole handler run. -/
theorem fireLoop_mem_timer (now : Nat) (id : String) (t0 : Timer) :
    ∀ (is : List Inst) (ts : List Timer) (n : Nat), t0 ∈ ts →
    (∀ j : Inst, j ∈ is → ∀ x, j.closeTimer = some x → x ≠ t0.tid) →
    t0 ∈ (fireLoop now id is ts n).2.1 := by
  intro is
  induction is with
  | nil => intro ts n h0 _; simpa [fireLoop] using h0
  | cons j rest ih =>
    intro ts n h0 href
    by_cases hc : (j.subscribed && j.props.id == id) = true
    · simp only [fireLoop, hc, if_true]
      refine ih _ (n + 1) ?_ ?_
      · exact List.mem_append.mpr (Or.inl
          (clearPending_mem_of_ne _ _ _ h0 (fun c hcd => href j (List.mem_cons_self j rest) c hcd)))
      · intro j' hj' x hx
        exact href j' (List.mem_cons_of_mem j hj') x hx
    · simp only [fireLoop, hc, if_false]
      exact ih ts n h0 (fun j' hj' x hx => href j' (List.mem_cons_of_mem j hj') x hx)

/-- Re-arm schedules: every subscribed matching instance ends the handler run
with a fresh pending timer id and an active timer armed at the broadcast
time. -/
theorem fireLoop_schedules (now : Nat) (id : String) :
    ∀ (is : List Inst) (ts : List Timer) (n : Nat) (i : Inst), i ∈ is →
    i.subscribed = true → i.props.id = id →
    (∀ j : Inst, j ∈ is → ∀ x, j.closeTimer = some x → x < n) →
    ∃ tid, n ≤ tid ∧ ({ i with closeTimer := some tid } : Inst) ∈ (fireLoop now id is ts n).1 ∧
      armTimer now tid i ∈ (fireLoop now id is ts n).2.1 := by
  intro is
  induction is with
  | nil => intro ts n i hi; exact absurd hi (List.not_mem_nil i)
  | cons j rest ih =>
    intro ts n i hi hsub hid hbound
    rcases List.mem_cons.mp hi with rfl | hi'
    · have hc : (i.subscribed && i.props.id == id) = true := by
        simp [hsub, hid]
      refine ⟨n, Nat.le_refl n, ?_, ?_⟩
      · simp only [fireLoop, hc, if_true]
        exact List.mem_cons_self _ _
      · simp only [fireLoop, hc, if_true]
        refine fireLoop_mem_timer now id (armTimer now n i) rest _ (n + 1)
          (List.mem_append.mpr (Or.inr (by simp))) ?_
        intro j' hj' x hx
        have := hbound j' (List.mem_cons_of_mem i hj') x hx
        simpa [armTimer] using Nat.ne_of_lt this
    · have hbound' : ∀ j' : Inst, j' ∈ rest → ∀ x, j'.closeTimer = some x → x < n :=
        fun j' hj' x hx => hbound j' (List.mem_cons_of_mem j hj') x hx
      by_cases hc : (j.subscribed && j.props.id == id) = true
      · obtain ⟨tid, htid, hmem, htimer⟩ := ih _ (n + 1) i hi' hsub hid
          (fun j' hj' x hx => Nat.lt_succ_of_lt (hbound' j' hj' x hx))
        refine ⟨tid, Nat.le_of_succ_le htid, ?_, ?_⟩
        · simp only [fireLoop, hc, if_true]
          exact List.mem_cons_of_mem _ hmem
        · simp only [fireLoop, hc, if_true]
          exact htimer
      · obtain ⟨tid, htid, hmem, htimer⟩ := ih ts n i hi' hsub hid hbound'
        refine ⟨tid, htid, ?_, ?_⟩
        · simp only [fireLoop, hc, if_false]
          exact List.mem_cons_of_mem _ hmem
        · simp only [fireLoop, hc, if_false]
          exact htimer

/-- If every instance carrying a given element identity is unsubscribed, a
handler run arms no timer against that identity. -/
theorem fireLoop_no_instKey (now : Nat) (id : String) (k : Nat) :
    ∀ (is : List Inst) (ts : List Timer) (n : Nat),
    (∀ j : Inst, j ∈ is → j.key = k → j.subscribed = false) →
    (∀ t ∈ ts, t.instKey ≠ k) →
    ∀ t ∈ (fireLoop now id is ts n).2.1, t.instKey ≠ k := by
  intro is
  induction is with
  | nil => intro ts n _ hts t ht; exact hts t (by simpa [fireLoop] using ht)
  | cons j rest ih =>
    intro ts n hsub hts t ht
    by_cases hc : (j.subscribed && j.props.id == id) = true
    · have hc' : j.subscribed = true ∧ (j.props.id == id) = true := by simpa using hc
      have hjsub : j.subscribed = true := hc'.1
      have hjk : j.key ≠ k := by
        intro hk
        rw [hsub j (List.mem_cons_self j rest) hk] at hjsub
        exact Bool.false_ne_true hjsub
      simp only [fireLoop, hc, if_true] at ht
      refine ih _ (n + 1) (fun j' hj' => hsub j' (List.mem_cons_of_mem j hj')) ?_ t ht
      intro t' ht'
      rcases List.mem_append.mp ht' with h1 | h1
      · exact hts t' (clearPending_subset _ _ t' h1)
      · have : t' = armTimer now n j := by simpa using h1
        subst this
        simpa [armTimer] using hjk
    · simp only [fireLoop, hc, if_false] at ht
      exact ih ts n (fun j' hj' => hsub j' (List.mem_cons_of_mem j hj')) hts t ht

/-- Handler runs only rewrite the `closeTimer` slot of instances: any property
preserved by such rewrites is preserved across the run. -/
theorem fireLoop_insts_pres (now : Nat) (id : String) (P : Inst → Prop)
    (hP : ∀ (i : Inst) (n' : Nat), P i → P { i with closeTimer := some n' }) :
    ∀ (is : List Inst) (ts : List Timer) (n : Nat), (∀ j ∈ is, P j) →
    ∀ j ∈ (fireLoop now id is ts n).1, P j := by
  intro is
  induction is with
  | nil => intro ts n _ j hj; simp [fireLoop] at hj
  | cons i rest ih =>
    intro ts n hall j hj
    by_cases hc : (i.subscribed && i.props.id == id) = true
    · simp only [fireLoop, hc, if_true] at hj
      rcases List.mem_cons.mp hj with rfl | hj'
      · exact hP i n (hall i (List.mem_cons_self i rest))
      · exact ih _ (n + 1) (fun j' hj'' => hall j' (List.mem_cons_of_mem i hj'')) j hj'
    · simp only [fireLoop, hc, if_false] at hj
      rcases List.mem_cons.mp hj with rfl | hj'
      · exact hall j (List.mem_cons_self j rest)
      · exact ih ts n (fun j' hj'' => hall j' (List.mem_cons_of_mem i hj'')) j hj'

/-- Writing the text of element `k` writes exactly that text to every element
with identity `k`. -/
theorem setText_mem (k : Nat) (s : String) (d : List Elem) :
    ∀ e ∈ setText k s d, e.key = k → e.text = s := by
  intro e he hk
  simp only [setText, List.mem_map] at he
  obtain ⟨e0, he0, rfl⟩ := he
  by_cases h : (e0.key == k) = true
  · simp [h]
  · simp only [h, if_false] at hk
    exact absurd (beq_iff_eq.mpr hk) h

/-- Writing the progress text of element `k` writes exactly that text to every
element with identity `k`. -/
theorem setProgressText_mem (k : Nat) (s : String) (d : List Elem) :
    ∀ e ∈ setProgressText k s d, e.key = k → e.progressText = s := by
  intro e he hk
  simp only [setProgressText, List.mem_map] at he
  obtain ⟨e0, he0, rfl⟩ := he
  by_cases h : (e0.key == k) = true
  · simp [h]
  · simp only [h, if_false] at hk
    exact absurd (beq_iff_eq.mpr hk) h

/-- Writing a text leaves every element's identity and progress text in
place. -/
theorem setText_pres (k : Nat) (s : String) (d : List Elem) :
    ∀ e ∈ setText k s d, ∃ e0 ∈ d, e.key = e0.key ∧ e.progressText = e0.progressText := by
  intro e he
  simp only [setText, List.mem_map] at he
  obtain ⟨e0, he0, rfl⟩ := he
  refine ⟨e0, he0, ?_, ?_⟩ <;> by_cases h : (e0.key == k) = true <;> simp [h]

/-- Writing a text preserves the list of element identities. -/
theorem setText_keys (k : Nat) (s : String) (d : List Elem) :
    (setText k s d).map (fun e => e.key) = d.map (fun e => e.key) := by
  induction d with
  | nil => rfl
  | cons e0 tl ih =>
    simp only [setText, List.map_cons] at ih ⊢
    congr 1
    by_cases h : (e0.key == k) = true <;> simp [h]

/-- Writing a progress text preserves the list of element identities. -/
theorem setProgressText_keys (k : Nat) (s : String) (d : List Elem) :
    (setProgressText k s d).map (fun e => e.key) = d.map (fun e => e.key) := by
  induction d with
  | nil => rfl
  | cons e0 tl ih =>
    simp only [setProgressText, List.map_cons] at ih ⊢
    congr 1
    by_cases h : (e0.key == k) = true <;> simp [h]

/-- Writing a text preserves every progress text. -/
theorem setText_progressTexts (k : Nat) (s : String) (d : List Elem) :
    (setText k s d).map (fun e => e.progressText) = d.map (fun e => e.progressText) := by
  induction d with
  | nil => rfl
  | cons e0 tl ih =>
    simp only [setText, List.map_cons] at ih ⊢
    congr 1
    by_cases h : (e0.key == k) = true <;> simp [h]

/-- C8: Notifications.create builds a detached notification subtree and
returns a handle bound to it; it performs no mutation of the container
document, arms no timer, and fires no ShownEvent — those happen only once the
handle's show() is called. -/
theorem create_is_detached_and_silent (p : NotificationProperties) (st : WorldState) :
    (notificationsCreate p st).2.doc = st.doc ∧
    (notificationsCreate p st).2.trace = st.trace ∧
    (notificationsCreate p st).2.timers = st.timers ∧
    (notificationsCreate p st).2.now = st.now ∧
    (notificationsCreate p st).1.node = [buildElem st.nextKey p] ∧
    (notificationsCreate p st).1.props = p :=
  ⟨rfl, rfl, rfl, rfl, rfl, rfl⟩

/-- C7: an update or close addressed to a notification id whose node is absent
from the document is a silent no-op: the null-checked lookups fail and the
whole world state is returned unchanged (the operations are total functions of
the state, so no fault is signalled for any input). -/
theorem absent_node_ops_silent_noop :
    (∀ (h : ProgressHandle) (st : WorldState),
      st.doc.find? (fun e : Elem => e.cid == cidOf h.props.id) = none →
      pnClose h st = st) ∧
    (∀ (h : ProgressHandle) (item : UpdateItem) (st : WorldState),
      st.doc.find? (fun e : Elem => e.textId == textIdOf h.props.id) = none →
      pnUpdate h item st = st) := by
  constructor
  · intro h st hfind
    simp [pnClose, hfind]
  · intro h item st hfind
    simp [pnUpdate, hfind]

/-- Witness for C7 at a concrete input: close and update on the empty
document are no-ops. -/
theorem absent_node_ops_silent_noop_witness :
    pnClose hP emptyWorld = emptyWorld ∧ pnUpdate hP itemM emptyWorld = emptyWorld :=
  ⟨absent_node_ops_silent_noop.1 hP emptyWorld (by decide),
   absent_node_ops_silent_noop.2 hP itemM emptyWorld (by decide)⟩

/-- Characterisation of the document after an update whose text lookup
succeeded: the optional percentage write happens first, then the main text is
rewritten on the found element's identity. -/
theorem pnUpdate_doc_found (h : ProgressHandle) (item : UpdateItem) (st : WorldState)
    (te : Elem)
    (hfind : st.doc.find? (fun e : Elem => e.textId == textIdOf h.props.id) = some te) :
    (pnUpdate h item st).doc =
      setText te.key (h.props.text ++ msgSuffix item.message)
        (match item.work with
         | none => st.doc
         | some w =>
           match st.doc.find? (fun e : Elem => e.progressId == some (progressIdOf h.props.id)) with
           | none => st.doc
           | some pe => setProgressText pe.key (percentText w) st.doc) := by
  simp only [pnUpdate, hfind]
  cases item.work with
  | none => rfl
  | some w =>
    cases st.doc.find? (fun e : Elem => e.progressId == some (progressIdOf h.props.id)) with
    | none => rfl
    | some pe => rfl

/-- C5: every update rewrites the notification's main text from the
creation-time `properties.text`, appending ": " plus the message exactly when
a (truthy) message is present; updates are not cumulative, since the base is
always the captured creation-time text. -/
theorem update_rewrites_text_from_creation :
    (∀ (h : ProgressHandle) (st : WorldState) (item : UpdateItem) (te : Elem),
      st.doc.find? (fun e : Elem => e.textId == textIdOf h.props.id) = some te →
      ∀ e ∈ (pnUpdate h item st).doc, e.key = te.key →
        e.text = h.props.text ++ msgSuffix item.message)
  ∧ msgSuffix (some "m") = ": m" ∧ msgSuffix none = "" := by
  refine ⟨?_, rfl, rfl⟩
  intro h st item te hfind e he hk
  rw [pnUpdate_doc_found h item st te hfind] at he
  exact setText_mem _ _ _ e he hk

/-- Witness for C5 on the shown demo progress notification (creation text
"T"): updating with message "m" renders "T: m", and updating the result again
with no message renders "T" — the base is the creation-time text. -/
theorem update_rewrites_text_from_creation_witness :
    (∀ e ∈ (pnUpdate hP2 itemM sP2).doc, e.key = 1 → e.text = "T: m") ∧
    (∀ e ∈ (pnUpdate hP2 itemNone (pnUpdate hP2 itemM sP2)).doc, e.key = 1 → e.text = "T") :=
  ⟨update_rewrites_text_from_creation.1 hP2 sP2 itemM (buildElem 1 propsP) (by decide),
   update_rewrites_text_from_creation.1 hP2 (pnUpdate hP2 itemM sP2) itemNone
     { buildElem 1 propsP with text := "T: m" } (by decide)⟩

/-- C6 counterexample: on the freshly created (detached, never shown) demo
progress handle with creation text "T", an update carrying message "m"
mutates nothing — the world is returned unchanged and the detached node still
carries text "T" (not "T: m"), so an update in the Detached state does not
mutate the notification's text. -/
theorem update_detached_mutates_nothing_cx :
    pnUpdate hP itemM sP = sP ∧ hP.node.map (fun e => e.text) = ["T"] := by
  constructor
  · decide
  · decide

/-- C6 (amended): ProgressNotification.update may be called in either state
without fault, but in the Detached state — the node built and held in the
handle's fragment, not yet appended — it is a silent no-op: the by-id lookup
runs against the live document and cannot see the detached fragment, so the
text is not mutated; text mutation happens only in the Shown state. -/
theorem update_detached_is_silent_noop :
    ∀ (h : ProgressHandle) (item : UpdateItem) (st : WorldState) (k : Nat),
    h.node = [buildElem k h.props] →
    st.doc.find? (fun e : Elem => e.textId == textIdOf h.props.id) = none →
    pnUpdate h item st = st := by
  intro h item st k hnode hfind
  simp [pnUpdate, hfind]

/-- Witness for the amended C6: the detached demo handle holds its built
subtree, the document lookup fails, and the update returns the world
unchanged. -/
theorem update_detached_is_silent_noop_witness :
    pnUpdate hP itemM sP = sP :=
  update_detached_is_silent_noop hP itemM sP 1 (by decide) (by decide)

/-- C4: an update whose argument carries `work = {done, total}` writes
`floor(done / total * 100)` followed by a percent sign into the progress
sub-element; the integer floor division used by the model is exactly the
rational floor of `done / total * 100` for positive totals, and the two
concrete instances of the claim render "25%" and "100%". -/
theorem update_work_renders_floor_percent :
    (∀ (h : ProgressHandle) (st : WorldState) (item : UpdateItem) (te pe : Elem)
      (w : WorkInfo),
      item.work = some w →
      st.doc.find? (fun e : Elem => e.textId == textIdOf h.props.id) = some te →
      st.doc.find? (fun e : Elem => e.progressId == some (progressIdOf h.props.id)) = some pe →
      ∀ e ∈ (pnUpdate h item st).doc, e.key = pe.key → e.progressText = percentText w)
  ∧ (∀ w : WorkInfo, 0 < w.total →
      percentText w = toString (⌊(w.done : ℚ) / (w.total : ℚ) * 100⌋) ++ "%")
  ∧ percentText { done := 1, total := 4 } = "25%"
  ∧ percentText { done := 3, total := 3 } = "100%" := by
  refine ⟨?_, ?_, by decide, by decide⟩
  · intro h st item te pe w hw hfind hfind2 e he hk
    have hd := pnUpdate_doc_found h item st te hfind
    simp only [hw, hfind2] at hd
    rw [hd] at he
    obtain ⟨e0, he0, hkey, hpt⟩ := setText_pres _ _ _ e he
    rw [hpt]
    exact setProgressText_mem _ _ _ e0 he0 (by rw [← hkey]; exact hk)
  · intro w hpos
    have hfd : (w.done * 100).fdiv w.total = ⌊(w.done : ℚ) / (w.total : ℚ) * 100⌋ := by
      rw [Int.fdiv_eq_ediv _ hpos.le]
      have h2 : ((w.total.toNat : ℕ) : ℚ) = (w.total : ℚ) := by
        rw [show ((w.total.toNat : ℕ) : ℚ) = ((w.total.toNat : ℤ) : ℚ) by push_cast; ring,
           Int.toNat_of_nonneg hpos.le]
      have h : ((w.done : ℚ) / (w.total : ℚ) * 100) =
          ((w.done * 100 : ℤ) : ℚ) / ((w.total.toNat : ℕ) : ℚ) := by
        rw [h2]; push_cast; ring
      rw [h, Rat.floor_intCast_div_natCast, Int.toNat_of_nonneg hpos.le]
    unfold percentText
    rw [hfd]

/-- Witness for C4 on the shown demo progress notification: updating with 1/4
done renders "25%", updating with 3/3 done renders "100%", and the bridge to
the rational floor holds at total = 4. -/
theorem update_work_renders_floor_percent_witness :
    (∀ e ∈ (pnUpdate hP2 itemW14 sP2).doc, e.key = 1 → e.progressText = "25%") ∧
    (∀ e ∈ (pnUpdate hP2 itemW33 sP2).doc, e.key = 1 → e.progressText = "100%") ∧
    percentText { done := 1, total := 4 } =
      toString (⌊((1 : ℤ) : ℚ) / ((4 : ℤ) : ℚ) * 100⌋) ++ "%" :=
  ⟨update_work_renders_floor_percent.1 hP2 sP2 itemW14 (buildElem 1 propsP)
      (buildElem 1 propsP) { done := 1, total := 4 } (by decide) (by decide) (by decide),
   update_work_renders_floor_percent.1 hP2 sP2 itemW33 (buildElem 1 propsP)
      (buildElem 1 propsP) { done := 3, total := 3 } (by decide) (by decide) (by decide),
   update_work_renders_floor_percent.2.1 { done := 1, total := 4 } (by decide)⟩

/-- C9: the progress sub-element is created exactly for icon "progress"; for
any other icon the built subtree has no progress paragraph, and an update
carrying `work` whose inner progress lookup fails writes no percentage
anywhere (every element's progress text is unchanged) while still rewriting
the main text. -/
theorem progress_subelement_only_for_progress_icon :
    (∀ (k : Nat) (p : NotificationProperties), p.icon ≠ PROGRESS →
      (buildElem k p).progressId = none)
  ∧ (∀ (h : ProgressHandle) (st : WorldState) (item : UpdateItem) (te : Elem) (w : WorkInfo),
      item.work = some w →
      st.doc.find? (fun e : Elem => e.textId == textIdOf h.props.id) = some te →
      st.doc.find? (fun e : Elem => e.progressId == some (progressIdOf h.props.id)) = none →
      ((pnUpdate h item st).doc.map (fun e => e.progressText) =
        st.doc.map (fun e => e.progressText)) ∧
      (∀ e ∈ (pnUpdate h item st).doc, e.key = te.key →
        e.text = h.props.text ++ msgSuffix item.message)) := by
  constructor
  · intro k p hicon
    have hb : (p.icon == PROGRESS) = false := beq_eq_false_iff_ne.mpr hicon
    simp [buildElem, hb]
  · intro h st item te w hw hfind hnone
    have hd := pnUpdate_doc_found h item st te hfind
    simp only [hw, hnone] at hd
    constructor
    · rw [hd]
      exact setText_progressTexts _ _ _
    · intro e he hk
      rw [hd] at he
      exact setText_mem _ _ _ e he hk

/-- Witness for C9: the demo error-icon notification has no progress
paragraph, and updating it with work 1/4 leaves every progress text unchanged
while rewriting the main text to "R". -/
theorem progress_subelement_only_for_progress_icon_witness :
    (buildElem 2 propsR).progressId = none ∧
    ((pnUpdate { props := propsR, node := [] } itemW14 sR).doc.map
        (fun e => e.progressText) = sR.doc.map (fun e => e.progressText)) ∧
    (∀ e ∈ (pnUpdate { props := propsR, node := [] } itemW14 sR).doc, e.key = 1 →
      e.text = "R") :=
  ⟨progress_subelement_only_for_progress_icon.1 2 propsR (by decide),
   (progress_subelement_only_for_progress_icon.2 { props := propsR, node := [] } sR itemW14
      (buildElem 1 propsR) { done := 1, total := 4 } (by decide) (by decide) (by decide)).1,
   (progress_subelement_only_for_progress_icon.2 { props := propsR, node := [] } sR itemW14
      (buildElem 1 propsR) { done := 1, total := 4 } (by decide) (by decide) (by decide)).2⟩

/-- C2: with `timeout = 0` or `undefined` the created closure instance never
subscribes for timeout arming; broadcasts then arm no timer against such a
notification's identity (and never touch the document), a due timer fire
never removes an element whose identity no timer references, and updates
never remove elements — the node persists until an explicit close or an
action click removes it. -/
theorem zero_timeout_no_timer_persists :
    (∀ (p : NotificationProperties) (st : WorldState),
      p.timeout = none ∨ p.timeout = some 0 →
      (createNotificationElement p st).2.insts =
        st.insts ++ [{ key := st.nextKey, props := p, closeTimer := none,
                       subscribed := false }])
  ∧ (∀ (st : WorldState) (id : String) (k : Nat),
      (∀ j ∈ st.insts, j.key = k → j.subscribed = false) →
      (∀ t ∈ st.timers, t.instKey ≠ k) →
      (fireShown id st).doc = st.doc ∧
      (∀ t ∈ (fireShown id st).timers, t.instKey ≠ k) ∧
      (∀ j ∈ (fireShown id st).insts, j.key = k → j.subscribed = false))
  ∧ (∀ (st : WorldState) (tid : Nat) (k : Nat) (e : Elem),
      (∀ t ∈ st.timers, t.instKey ≠ k) → e ∈ st.doc → e.key = k →
      e ∈ (timerFire tid st).doc)
  ∧ (∀ (h : ProgressHandle) (item : UpdateItem) (st : WorldState),
      (pnUpdate h item st).doc.map (fun e => e.key) = st.doc.map (fun e => e.key)) := by
  refine ⟨?_, ?_, ?_, ?_⟩
  · intro p st hp
    rcases hp with hp | hp <;> simp [createNotificationElement, timeoutArmed, hp]
  · intro st id k hsub hts
    refine ⟨rfl, ?_, ?_⟩
    · intro t ht
      rw [fireShown_timers] at ht
      exact fireLoop_no_instKey st.now id k st.insts st.timers st.nextTid hsub hts t ht
    · intro j hj hk
      rw [fireShown_insts] at hj
      exact fireLoop_insts_pres st.now id (fun j => j.key = k → j.subscribed = false)
        (fun i n' hi hk' => hi hk') st.insts st.timers st.nextTid hsub j hj hk
  · intro st tid k e hts he hk
    cases hfind : st.timers.find? (fun u : Timer => u.tid == tid) with
    | none => simpa [timerFire, hfind] using he
    | some t =>
      have htk : t.instKey ≠ k := hts t (List.mem_of_find?_eq_some hfind)
      by_cases hle : t.deadline ≤ st.now
      · simp only [timerFire, hfind, if_pos hle, elemRemove]
        refine List.mem_filter.mpr ⟨he, ?_⟩
        simp only [bne_iff_ne, ne_eq, decide_eq_true_eq]
        rw [hk]
        exact fun hh => htk hh.symm
      · simpa [timerFire, hfind, hle] using he
  · intro h item st
    cases hfind : st.doc.find? (fun e : Elem => e.textId == textIdOf h.props.id) with
    | none => simp [pnUpdate, hfind]
    | some te =>
      rw [pnUpdate_doc_found h item st te hfind]
      cases hw : item.work with
      | none => exact setText_keys _ _ _
      | some w =>
        cases hf2 : st.doc.find? (fun e : Elem => e.progressId == some (progressIdOf h.props.id)) with
        | none => exact setText_keys _ _ _
        | some pe => rw [setText_keys, setProgressText_keys]

/-- Witness for C2 on the demo progress notification without timeout: its
instance is created unsubscribed, a broadcast for its id arms nothing against
it, and a stray timer fire leaves its shown node in the document. -/
theorem zero_timeout_no_timer_persists_witness :
    ((createNotificationElement propsP emptyWorld).2.insts =
      emptyWorld.insts ++ [{ key := 1, props := propsP, closeTimer := none,
                             subscribed := false }]) ∧
    (∀ t ∈ (fireShown "p1" sP2).timers, t.instKey ≠ 1) ∧
    buildElem 1 propsP ∈ (timerFire 7 sP2).doc :=
  ⟨zero_timeout_no_timer_persists.1 propsP emptyWorld (Or.inl rfl),
   (zero_timeout_no_timer_persists.2.1 sP2 "p1" 1 (by decide) (by decide)).2.1,
   zero_timeout_no_timer_persists.2.2.1 sP2 7 1 (buildElem 1 propsP)
     (by decide) (by decide) (by decide)⟩

/-- C3 counterexample: after the demo progress notification is shown and its
node is removed externally, a further show() passes the presence check and
fires ShownEvent again, but appends nothing: the handle's fragment was
emptied by the first append, so the container stays empty — the claim's
"a subsequent show() appends ... again" fails at this input. -/
theorem show_after_external_removal_appends_nothing_cx :
    hP2.node = [] ∧
    (pnShow hP2 sExt).2.doc = [] ∧
    (pnShow hP2 sExt).2.trace = sExt.trace ++ [TraceEvent.shown "p1"] :=
  ⟨by decide, by decide, by decide⟩

/-- C3 (amended): show() is idempotent while the node is present, checked by
document-presence lookup, not an internal flag: with the node present it is a
no-op; a first effective show() appends exactly the one built node and fires
ShownEvent, and showing again immediately is a no-op. After external removal
of the node a subsequent show() passes the presence check and fires
ShownEvent again, but appends nothing, the fragment having been emptied by
the first append. -/
theorem show_idempotent_by_presence :
    (∀ (h : ProgressHandle) (st : WorldState) (e : Elem),
      st.doc.find? (fun e0 : Elem => e0.cid == cidOf h.props.id) = some e →
      pnShow h st = (h, st))
  ∧ (∀ (h : ProgressHandle) (st : WorldState) (k : Nat),
      st.doc.find? (fun e0 : Elem => e0.cid == cidOf h.props.id) = none →
      h.node = [buildElem k h.props] →
      (pnShow h st).2.doc = st.doc ++ [buildElem k h.props] ∧
      (pnShow h st).2.trace = st.trace ++ [TraceEvent.shown h.props.id] ∧
      pnShow (pnShow h st).1 (pnShow h st).2 = pnShow h st)
  ∧ (∀ (h : ProgressHandle) (st : WorldState),
      st.doc.find? (fun e0 : Elem => e0.cid == cidOf h.props.id) = none →
      h.node = [] →
      (pnShow h st).2.doc = st.doc ∧
      (pnShow h st).2.trace = st.trace ++ [TraceEvent.shown h.props.id]) := by
  refine ⟨?_, ?_, ?_⟩
  · intro h st e hfind
    simp [pnShow, hfind]
  · intro h st k hfind hnode
    have hps : pnShow h st =
        ({ h with node := [] },
         fireShown h.props.id { st with doc := st.doc ++ h.node }) := by
      simp [pnShow, hfind]
    have hdoc : (fireShown h.props.id { st with doc := st.doc ++ h.node }).doc
        = st.doc ++ [buildElem k h.props] := by
      rw [fireShown_doc, hnode]
    refine ⟨?_, ?_, ?_⟩
    · rw [hps]
      exact hdoc
    · rw [hps, fireShown_trace]
    · have hf2 : (fireShown h.props.id { st with doc := st.doc ++ h.node }).doc.find?
          (fun e0 : Elem => e0.cid == cidOf h.props.id) = some (buildElem k h.props) := by
        rw [hdoc, List.find?_append, hfind]
        simp [buildElem]
      rw [hps]
      simp [pnShow, hf2]
  · intro h st hfind hnode
    have hps : pnShow h st =
        ({ h with node := [] },
         fireShown h.props.id { st with doc := st.doc ++ h.node }) := by
      simp [pnShow, hfind]
    constructor
    · rw [hps, fireShown_doc, hnode]
      exact List.append_nil st.doc
    · rw [hps, fireShown_trace]

/-- Witness for the amended C3: showing the already-shown demo notification
is a no-op; the first show() appended exactly its one node, fired ShownEvent,
and an immediate second show() changed nothing; show() after external removal
fires again but leaves the empty document empty. -/
theorem show_idempotent_by_presence_witness :
    (pnShow hP2 sP2 = (hP2, sP2)) ∧
    ((pnShow hP sP).2.doc = sP.doc ++ [buildElem 1 propsP] ∧
     (pnShow hP sP).2.trace = sP.trace ++ [TraceEvent.shown "p1"] ∧
     pnShow (pnShow hP sP).1 (pnShow hP sP).2 = pnShow hP sP) ∧
    ((pnShow hP2 sExt).2.doc = sExt.doc ∧
     (pnShow hP2 sExt).2.trace = sExt.trace ++ [TraceEvent.shown "p1"]) :=
  ⟨show_idempotent_by_presence.1 hP2 sP2 (buildElem 1 propsP) (by decide),
   show_idempotent_by_presence.2.1 hP sP 1 (by decide) (by decide),
   show_idempotent_by_presence.2.2 hP2 sExt (by decide) (by decide)⟩

/-- C1: for a subscribed notification with positive timeout, every
ShownEvent broadcast for its id clears the previously scheduled timer (no
active timer keeps the old id) and schedules a fresh one whose deadline is
the broadcast time plus the timeout; a click on any action button clears the
pending timer, removes the node and runs the action; and a timer can fire
only once the clock has reached its deadline — so only ≥ timeout after the
most recent broadcast — whereupon onTimeout() is invoked and then the node is
removed. -/
theorem timeout_rearm_cancel_fire :
    (∀ (st : WorldState) (i : Inst) (oldTid : Nat), i ∈ st.insts →
      i.subscribed = true → i.closeTimer = some oldTid → oldTid ≠ 0 →
      oldTid < st.nextTid →
      ∀ t ∈ (fireShown i.props.id st).timers, t.tid ≠ oldTid)
  ∧ (∀ (st : WorldState) (i : Inst) (T : Int), i ∈ st.insts →
      i.subscribed = true → i.props.timeout = some T →
      (∀ j ∈ st.insts, ∀ x, j.closeTimer = some x → x < st.nextTid) →
      ∃ tid, st.nextTid ≤ tid ∧
        ({ i with closeTimer := some tid } : Inst) ∈ (fireShown i.props.id st).insts ∧
        ({ tid := tid, deadline := st.now + T.toNat, instKey := i.key,
           forId := i.props.id } : Timer) ∈ (fireShown i.props.id st).timers)
  ∧ (∀ (st : WorldState) (k : Nat) (lbl : String) (i : Inst) (ct : Nat),
      st.insts.find? (fun j : Inst => j.key == k) = some i →
      i.closeTimer = some ct → ct ≠ 0 →
      (∀ t ∈ (clickButton k lbl st).timers, t.tid ≠ ct) ∧
      (clickButton k lbl st).doc = st.doc.filter (fun e : Elem => e.key != k) ∧
      (clickButton k lbl st).trace =
        st.trace ++ [TraceEvent.actionRun i.props.id lbl, TraceEvent.removed k])
  ∧ (∀ (st : WorldState) (tid : Nat) (t : Timer),
      st.timers.find? (fun u : Timer => u.tid == tid) = some t →
      (t.deadline ≤ st.now →
        (timerFire tid st).trace =
          st.trace ++ [TraceEvent.timedOut t.forId, TraceEvent.removed t.instKey] ∧
        (timerFire tid st).doc = st.doc.filter (fun e : Elem => e.key != t.instKey) ∧
        (timerFire tid st).timers = st.timers.filter (fun u : Timer => u.tid != tid)) ∧
      (¬ t.deadline ≤ st.now → timerFire tid st = st))
  ∧ (∀ T : Int, 0 < T → timeoutArmed (some T) = true) := by
  refine ⟨?_, ?_, ?_, ?_, ?_⟩
  · intro st i oldTid hi hsub hct hct0 hlt t ht
    rw [fireShown_timers] at ht
    exact fireLoop_clears st.now i.props.id oldTid st.insts st.timers st.nextTid i
      hi hsub rfl hct hct0 hlt t ht
  · intro st i T hi hsub hT hbound
    obtain ⟨tid, htid, hmem, htimer⟩ := fireLoop_schedules st.now i.props.id st.insts
      st.timers st.nextTid i hi hsub rfl hbound
    refine ⟨tid, htid, ?_, ?_⟩
    · rw [fireShown_insts]
      exact hmem
    · rw [fireShown_timers]
      simpa [armTimer, hT] using htimer
  · intro st k lbl i ct hfind hct hct0
    have hb : (ct != 0) = true := by simpa [bne_iff_ne] using hct0
    have hcb : clickButton k lbl st =
        { st with timers := st.timers.filter (fun t => t.tid != ct),
                  doc := st.doc.filter (fun e => e.key != k),
                  trace := (st.trace ++ [TraceEvent.actionRun i.props.id lbl])
                    ++ [TraceEvent.removed k] } := by
      simp [clickButton, hfind, hct, hb, elemRemove]
    refine ⟨?_, ?_, ?_⟩
    · intro t ht
      rw [hcb] at ht
      simpa [bne_iff_ne] using (List.mem_filter.mp ht).2
    · rw [hcb]
    · rw [hcb]
      simp
  · intro st tid t hfind
    constructor
    · intro hle
      have heq : timerFire tid st =
          { st with timers := st.timers.filter (fun u => u.tid != tid),
                    doc := st.doc.filter (fun e => e.key != t.instKey),
                    trace := (st.trace ++ [TraceEvent.timedOut t.forId])
                      ++ [TraceEvent.removed t.instKey] } := by
        simp [timerFire, hfind, hle, elemRemove]
      refine ⟨?_, ?_, ?_⟩ <;> rw [heq]
      simp
    · intro hle
      simp [timerFire, hfind, hle]
  · intro T hT
    simp [timeoutArmed, hT, Int.ne_of_gt hT]

/-- Witness for C1 on the demo notification with timeout 5 shown at time 0:
the re-broadcast clears timer 1 and arms a fresh timer with deadline 0 + 5,
the button click clears timer 1, and at time 5 the due timer fire records
onTimeout before the removal. -/
theorem timeout_rearm_cancel_fire_witness :
    (∀ t ∈ (fireShown "n1" w1).timers, t.tid ≠ 1) ∧
    (∃ tid, w1.nextTid ≤ tid ∧
      ({ instA with closeTimer := some tid } : Inst) ∈ (fireShown "n1" w1).insts ∧
      ({ tid := tid, deadline := w1.now + (5 : Int).toNat, instKey := 1,
         forId := "n1" } : Timer) ∈ (fireShown "n1" w1).timers) ∧
    (∀ t ∈ (clickButton 1 "OK" w1).timers, t.tid ≠ 1) ∧
    ((timerFire 1 w2).trace =
      w2.trace ++ [TraceEvent.timedOut "n1", TraceEvent.removed 1]) ∧
    timeoutArmed (some 5) = true :=
  ⟨timeout_rearm_cancel_fire.1 w1 instA 1 (by decide) (by decide) (by decide)
      (by decide) (by decide),
   timeout_rearm_cancel_fire.2.1 w1 instA 5 (by decide) (by decide) (by decide)
      (by decide),
   (timeout_rearm_cancel_fire.2.2.1 w1 1 "OK" instA 1 (by decide) (by decide)
      (by decide)).1,
   ((timeout_rearm_cancel_fire.2.2.2.1 w2 1 timerA (by decide)).1 (by decide)).1,
   timeout_rearm_cancel_fire.2.2.2.2 5 (by decide)⟩

/-- C10: the onShow subscription that arms a timeout is never unsubscribed.
A broadcast's effect on instances and timers is independent of the document
(in particular of whether the notification's node is still attached);
removal operations (timer fire, action click, close) leave the subscription
state untouched; and a due timer whose element is already detached still
invokes onTimeout() and re-runs the removal, leaving the document as it
was. -/
theorem onshow_subscription_never_disposed :
    (∀ (st : WorldState) (id : String) (d : List Elem),
      fireShown id { st with doc := d } = { fireShown id st with doc := d })
  ∧ (∀ (st : WorldState) (tid k : Nat) (lbl : String) (h : ProgressHandle),
      (timerFire tid st).insts = st.insts ∧
      (clickButton k lbl st).insts = st.insts ∧
      (pnClose h st).insts = st.insts)
  ∧ (∀ (st : WorldState) (tid : Nat) (t : Timer),
      st.timers.find? (fun u : Timer => u.tid == tid) = some t →
      t.deadline ≤ st.now →
      (∀ e ∈ st.doc, e.key ≠ t.instKey) →
      (timerFire tid st).doc = st.doc ∧
      (timerFire tid st).trace =
        st.trace ++ [TraceEvent.timedOut t.forId, TraceEvent.removed t.instKey]) := by
  refine ⟨?_, ?_, ?_⟩
  · intro st id d
    rfl
  · intro st tid k lbl h
    refine ⟨?_, ?_, ?_⟩
    · cases hfind : st.timers.find? (fun u : Timer => u.tid == tid) with
      | none => simp [timerFire, hfind]
      | some t =>
        by_cases hle : t.deadline ≤ st.now <;> simp [timerFire, hfind, hle, elemRemove]
    · cases hfind : st.insts.find? (fun i : Inst => i.key == k) with
      | none => simp [clickButton, hfind]
      | some i =>
        cases hct : i.closeTimer with
        | none => simp [clickButton, hfind, hct, elemRemove]
        | some ct =>
          by_cases hb : (ct != 0) = true <;> simp [clickButton, hfind, hct, hb, elemRemove]
    · cases hfind : st.doc.find? (fun e : Elem => e.cid == cidOf h.props.id) with
      | none => simp [pnClose, hfind]
      | some e => simp [pnClose, hfind, elemRemove]
  · intro st tid t hfind hle hdoc
    have heq : timerFire tid st =
        { st with timers := st.timers.filter (fun u => u.tid != tid),
                  doc := st.doc.filter (fun e => e.key != t.instKey),
                  trace := (st.trace ++ [TraceEvent.timedOut t.forId])
                    ++ [TraceEvent.removed t.instKey] } := by
      simp [timerFire, hfind, hle, elemRemove]
    constructor
    · rw [heq]
      refine List.filter_eq_self.mpr ?_
      intro e he
      simpa [bne_iff_ne] using hdoc e he
    · rw [heq]
      simp

/-- Witness for C10 on the demo progress notification with timeout 3: the
broadcast acts identically whether or not the node is attached; the timer
fire keeps the subscription; and the second timer, armed by a re-show after
the element was gone, fires onTimeout again and re-runs the removal on the
empty document. -/
theorem onshow_subscription_never_disposed_witness :
    (fireShown "q1" { sQ2 with doc := [] } = { fireShown "q1" sQ2 with doc := [] }) ∧
    ((timerFire 1 (advance 3 sQ2)).insts = (advance 3 sQ2).insts) ∧
    ((timerFire 2 (advance 3 sQ4)).doc = (advance 3 sQ4).doc ∧
     (timerFire 2 (advance 3 sQ4)).trace =
       (advance 3 sQ4).trace ++ [TraceEvent.timedOut "q1", TraceEvent.removed 1]) :=
  ⟨onshow_subscription_never_disposed.1 sQ2 "q1" [],
   (onshow_subscription_never_disposed.2.1 (advance 3 sQ2) 1 0 "x" hP).1,
   onshow_subscription_never_disposed.2.2 (advance 3 sQ4) 2
     { tid := 2, deadline := 6, instKey := 1, forId := "q1" }
     (by decide) (by decide) (by decide)⟩
